import Mathlib

/-!
Verification of the `transmission_black` example (`src/examples/3d/transmission_black.rs`):
a shallow embedding of its scene composer (`setup`) and camera controller
(`camera_control_system`), together with proofs of the specified properties.

Modelling conventions:
* `f32` values are modelled by real numbers (exact arithmetic).
* Rotations (`Quat` values in the source) are modelled by their action on
  vectors, i.e. by 3×3 matrices; quaternion composition corresponds to matrix
  multiplication and `Quat::from_euler` to a product of axis rotation matrices,
  which is exact in real arithmetic.
* Library helpers the example calls (`Vec3` arithmetic, `Transform::looking_at`,
  `Transform::rotate_around`, `StandardMaterial::default`) live outside the
  example file; they are modelled from the spec, as marked on each definition.
-/

noncomputable section

namespace TransmissionBlack

open scoped Classical

/-- A 3-component vector of reals, modelling `glam::Vec3` (components `f32`). -/
@[ext]
structure Vec3 where
  x : ℝ
  y : ℝ
  z : ℝ

instance : Zero Vec3 := ⟨⟨0, 0, 0⟩⟩

instance : Add Vec3 := ⟨fun a b => ⟨a.x + b.x, a.y + b.y, a.z + b.z⟩⟩

instance : Sub Vec3 := ⟨fun a b => ⟨a.x - b.x, a.y - b.y, a.z - b.z⟩⟩

instance : Neg Vec3 := ⟨fun a => ⟨-a.x, -a.y, -a.z⟩⟩

instance : SMul ℝ Vec3 := ⟨fun k a => ⟨k * a.x, k * a.y, k * a.z⟩⟩

@[simp]
theorem Vec3.zero_def : (0 : Vec3) = ⟨0, 0, 0⟩ := rfl

@[simp]
theorem Vec3.add_def (a b : Vec3) : a + b = ⟨a.x + b.x, a.y + b.y, a.z + b.z⟩ := rfl

@[simp]
theorem Vec3.sub_def (a b : Vec3) : a - b = ⟨a.x - b.x, a.y - b.y, a.z - b.z⟩ := rfl

@[simp]
theorem Vec3.neg_def (a : Vec3) : -a = ⟨-a.x, -a.y, -a.z⟩ := rfl

@[simp]
theorem Vec3.smul_def (k : ℝ) (a : Vec3) : k • a = ⟨k * a.x, k * a.y, k * a.z⟩ := rfl

/-- Modelled from the spec: `Vec3::length`, the Euclidean distance from the
origin (the spec's derived `distance(position, origin)` quantity). -/
def Vec3.length (v : Vec3) : ℝ :=
  Real.sqrt (v.x ^ 2 + v.y ^ 2 + v.z ^ 2)

/-- Modelled from the spec: `Vec3::cross`, the standard cross product used by
the look-at orientation construction. -/
def Vec3.cross (a b : Vec3) : Vec3 :=
  ⟨a.y * b.z - a.z * b.y, a.z * b.x - a.x * b.z, a.x * b.y - a.y * b.x⟩

/-- Modelled from the spec: `Vec3::normalize`, scaling a vector to unit length
(in real arithmetic, multiplication by the reciprocal of the length). -/
def Vec3.normalize (v : Vec3) : Vec3 :=
  (1 / v.length) • v

/-- A 3×3 matrix given by its columns, modelling the action of a `glam`
rotation (`Quat` / `Mat3`, column-major as in `Mat3::from_cols`). -/
@[ext]
structure Mat3 where
  x_axis : Vec3
  y_axis : Vec3
  z_axis : Vec3

/-- Matrix–vector multiplication: the linear combination of the columns. -/
def Mat3.mulVec (m : Mat3) (v : Vec3) : Vec3 :=
  v.x • m.x_axis + v.y • m.y_axis + v.z • m.z_axis

instance : Mul Mat3 :=
  ⟨fun m n => ⟨m.mulVec n.x_axis, m.mulVec n.y_axis, m.mulVec n.z_axis⟩⟩

@[simp]
theorem Mat3.mul_def (m n : Mat3) :
    m * n = ⟨m.mulVec n.x_axis, m.mulVec n.y_axis, m.mulVec n.z_axis⟩ := rfl

/-- The identity rotation (`Quat::IDENTITY` / `Mat3::IDENTITY`). -/
def Mat3.id : Mat3 := ⟨⟨1, 0, 0⟩, ⟨0, 1, 0⟩, ⟨0, 0, 1⟩⟩

/-- Modelled from the spec: rotation about the X axis by `θ` radians
(`Mat3::from_rotation_x`, the action of `Quat::from_rotation_x`). -/
def Mat3.from_rotation_x (θ : ℝ) : Mat3 :=
  ⟨⟨1, 0, 0⟩, ⟨0, Real.cos θ, Real.sin θ⟩, ⟨0, -Real.sin θ, Real.cos θ⟩⟩

/-- Modelled from the spec: rotation about the world up (Y) axis by `θ`
radians (`Mat3::from_rotation_y`, the action of `Quat::from_rotation_y`). -/
def Mat3.from_rotation_y (θ : ℝ) : Mat3 :=
  ⟨⟨Real.cos θ, 0, -Real.sin θ⟩, ⟨0, 1, 0⟩, ⟨Real.sin θ, 0, Real.cos θ⟩⟩

/-- Modelled from the spec: rotation about the Z axis by `θ` radians
(`Mat3::from_rotation_z`, the action of `Quat::from_rotation_z`). -/
def Mat3.from_rotation_z (θ : ℝ) : Mat3 :=
  ⟨⟨Real.cos θ, Real.sin θ, 0⟩, ⟨-Real.sin θ, Real.cos θ, 0⟩, ⟨0, 0, 1⟩⟩

/-- Modelled from the spec: `Quat::from_euler(EulerRot::XYZ, a, b, c)` as the
composite of the three axis rotations. The controller only ever calls this
with `a = c = 0`, where every Euler ordering convention agrees and the result
is the pure yaw rotation about the world up axis. -/
def Mat3.from_euler_xyz (a b c : ℝ) : Mat3 :=
  Mat3.from_rotation_x a * (Mat3.from_rotation_y b * Mat3.from_rotation_z c)

/-- A node transform: position and orientation (`bevy` `Transform`; the
examples leave scale at its default of one). -/
@[ext]
structure Transform where
  translation : Vec3
  rotation : Mat3

/-- The camera's forward axis: the image of −Z under the orientation
(`Transform::forward`). -/
def Transform.forward (t : Transform) : Vec3 :=
  t.rotation.mulVec ⟨0, 0, -1⟩

/-- Modelled from the spec: `Transform::rotate_around(point, rotation)` —
"a rotation of the camera's position vector about the world up axis, pivoting
around the origin": the position is rotated about the pivot and the same
rotation is composed onto the orientation. -/
def Transform.rotate_around (t : Transform) (point : Vec3) (rotation : Mat3) : Transform :=
  ⟨point + rotation.mulVec (t.translation - point), rotation * t.rotation⟩

/-- Modelled from the spec: the orientation built by
`Transform::looking_at(target, up)` — "look at world origin, up = world up":
an orthonormal basis whose back (+Z) column is the unit vector from the target
towards the eye, so the forward axis (−Z) points from the eye at the target. -/
def look_to_rotation (direction up : Vec3) : Mat3 :=
  let back := -direction.normalize
  let right := (up.cross back).normalize
  ⟨right, back.cross right, back⟩

/-- Modelled from the spec: `Transform::looking_at(target, up)`, keeping the
translation and replacing the orientation by the look-at basis towards
`target`. -/
def Transform.looking_at (t : Transform) (target up : Vec3) : Transform :=
  ⟨t.translation, look_to_rotation (target - t.translation) up⟩

/-- The per-frame keyboard state read by the controller: whether each of the
four directional keys (`KeyCode::Left/Right/Up/Down`) is currently held. -/
structure InputState where
  left : Bool
  right : Bool
  up : Bool
  down : Bool

/-- The controller's `yaw` binding: `+delta_seconds` while `Right` is held,
else `-delta_seconds` while `Left` is held, else `0`. -/
def yaw (input : InputState) (delta_seconds : ℝ) : ℝ :=
  if input.right then delta_seconds
  else if input.left then -delta_seconds
  else 0

/-- The controller's `distance_change` binding: `+delta_seconds` while `Down`
is held and the pre-frame distance from the origin is below `25.0`, else
`-delta_seconds` while `Up` is held and that distance is above `2.0`, else
`0`. -/
def distance_change (input : InputState) (delta_seconds : ℝ) (translation : Vec3) : ℝ :=
  if input.down ∧ translation.length < 25 then delta_seconds
  else if input.up ∧ translation.length > 2 then -delta_seconds
  else 0

/-- The camera controller (`camera_control_system`): computes the yaw angular
delta and the dolly scalar from the held keys and the elapsed seconds, scales
the position radially by `exp` of the dolly delta, then rotates the transform
about the world origin by the yaw angle about the world up axis. -/
def camera_control_system (input : InputState) (delta_seconds : ℝ)
    (camera_transform : Transform) : Transform :=
  let scaled : Transform :=
    ⟨Real.exp (distance_change input delta_seconds camera_transform.translation) •
        camera_transform.translation,
      camera_transform.rotation⟩
  scaled.rotate_around ⟨0, 0, 0⟩ (Mat3.from_euler_xyz 0 (yaw input delta_seconds) 0)

/-- The initial camera pose created by `setup`:
`Transform::from_xyz(1.0, 2.5, 7.0).looking_at(Vec3::ZERO, Vec3::Y)`. -/
def initial_camera : Transform :=
  Transform.looking_at ⟨⟨1, 2.5, 7⟩, Mat3.id⟩ ⟨0, 0, 0⟩ ⟨0, 1, 0⟩

/-- The camera states reachable from the initial pose by per-frame controller
updates, with arbitrary input and elapsed time each frame. -/
inductive Reachable : Transform → Prop where
  | init : Reachable initial_camera
  | step (input : InputState) (dt : ℝ) (s : Transform) :
      Reachable s → Reachable (camera_control_system input dt s)

/-- The look-at invariant: the camera's forward axis, which the orientation
keeps normalized, equals the normalized vector from the camera position to the
world origin. -/
def looks_at_origin (t : Transform) : Prop :=
  t.forward = ((0 : Vec3) - t.translation).normalize

/-- The physically-based material parameters the example sets
(`StandardMaterial`); the base color is an RGB triple. -/
structure StandardMaterial where
  base_color : Vec3
  diffuse_transmission : ℝ
  specular_transmission : ℝ
  thickness : ℝ
  ior : ℝ
  perceptual_roughness : ℝ
  reflectance : ℝ

/-- Modelled from the spec: the "scene defaults table" filling the fields a
node description leaves unset (`StandardMaterial::default()` — white base
color, no transmission, zero thickness, IOR 1.5, roughness 0.5,
reflectance 0.5). -/
def StandardMaterial.scene_default : StandardMaterial :=
  ⟨⟨1, 1, 1⟩, 0, 0, 0, 1.5, 0.5, 0.5⟩

/-- The directional light parameters the example sets (`DirectionalLight`). -/
structure DirectionalLight where
  color : Vec3
  illuminance : ℝ
  shadows_enabled : Bool
  shadow_depth_bias : ℝ
  shadow_normal_bias : ℝ

/-- The primitive mesh descriptors the example registers: a square plane of a
given size, a cube of a given edge, a quad of given extents. -/
inductive MeshShape where
  | plane (size : ℝ)
  | cube (size : ℝ)
  | quad (size_x size_y : ℝ)

/-- The camera render settings the example sets: HDR output, exposure and
post-saturation colour grading. -/
structure CameraSettings where
  hdr : Bool
  exposure : ℝ
  post_saturation : ℝ

/-- One node of the scene graph the composer emits: a directional light, a
mesh entity with its material and shadow-cast/receive flags, or the camera. -/
inductive SceneNode where
  | light (l : DirectionalLight) (transform : Transform)
  | object (shape : MeshShape) (material : StandardMaterial)
      (cast_shadow receive_shadow : Bool) (transform : Transform)
  | camera (settings : CameraSettings) (transform : Transform)

/-- The material of the transmissive window quad: white base color, full
diffuse and specular transmission, thickness 1, IOR 1.4, zero roughness, zero
reflectance, remaining fields defaulted. -/
def window_material : StandardMaterial :=
  { StandardMaterial.scene_default with
      base_color := ⟨1, 1, 1⟩
      diffuse_transmission := 1
      specular_transmission := 1
      thickness := 1
      ior := 1.4
      perceptual_roughness := 0
      reflectance := 0 }

/-- The scene composer (`setup`): the fixed list of scene-node descriptions it
registers — one directional light, the green ground plane, the red cube, the
transmissive window quad (flagged `NotShadowCaster` and `NotShadowReceiver`),
and the camera looking at the origin from `(1, 2.5, 7)`. Colour constants
(`GREEN`, `RED`, `WHITE`) are their RGB values. -/
def setup : List SceneNode :=
  [ SceneNode.light
      ⟨⟨0.98, 0.95, 0.82⟩, 15000, true, 0.02, 0.6⟩
      ⟨⟨0, 0, 0⟩, Mat3.from_rotation_x 1.9 * Mat3.from_rotation_y Real.pi⟩
  , SceneNode.object (MeshShape.plane 100)
      { StandardMaterial.scene_default with base_color := ⟨0, 1, 0⟩ }
      true true ⟨⟨0, 0.5, -3⟩, Mat3.id⟩
  , SceneNode.object (MeshShape.cube 0.7)
      { StandardMaterial.scene_default with base_color := ⟨1, 0, 0⟩ }
      true true ⟨⟨0.25, 0.2, -2⟩, Mat3.from_euler_xyz 1.4 3.7 21.3⟩
  , SceneNode.object (MeshShape.quad 4 4) window_material
      false false ⟨⟨0.25, 1, -2⟩, Mat3.from_euler_xyz (Real.pi * 1.5) 0 0⟩
  , SceneNode.camera ⟨true, -2, 1.2⟩ initial_camera
  ]

/-- Whether a scene node is the directional light. -/
def SceneNode.is_light : SceneNode → Bool
  | SceneNode.light _ _ => true
  | _ => false

/-- Whether a scene node is a mesh entity with a plane shape. -/
def SceneNode.is_plane : SceneNode → Bool
  | SceneNode.object (MeshShape.plane _) _ _ _ _ => true
  | _ => false

/-- Whether a scene node is a mesh entity with a cube shape. -/
def SceneNode.is_cube : SceneNode → Bool
  | SceneNode.object (MeshShape.cube _) _ _ _ _ => true
  | _ => false

/-- Whether a scene node is a mesh entity with a quad shape. -/
def SceneNode.is_quad : SceneNode → Bool
  | SceneNode.object (MeshShape.quad _ _) _ _ _ _ => true
  | _ => false

/-- Whether a scene node is the camera. -/
def SceneNode.is_camera : SceneNode → Bool
  | SceneNode.camera _ _ => true
  | _ => false

/-! ### Basic lemmas about the vector and rotation embedding -/

theorem Vec3.length_nonneg (v : Vec3) : 0 ≤ v.length :=
  Real.sqrt_nonneg _

theorem Vec3.length_eq_zero_iff (v : Vec3) : v.length = 0 ↔ v = 0 := by
  unfold Vec3.length
  constructor
  · intro h
    have hsum : v.x ^ 2 + v.y ^ 2 + v.z ^ 2 = 0 := by
      have hnn : 0 ≤ v.x ^ 2 + v.y ^ 2 + v.z ^ 2 := by positivity
      nlinarith [Real.sq_sqrt hnn, h]
    have hx : v.x = 0 := by nlinarith [sq_nonneg v.x, sq_nonneg v.y, sq_nonneg v.z]
    have hy : v.y = 0 := by nlinarith [sq_nonneg v.x, sq_nonneg v.y, sq_nonneg v.z]
    have hz : v.z = 0 := by nlinarith [sq_nonneg v.x, sq_nonneg v.y, sq_nonneg v.z]
    ext <;> simp [hx, hy, hz]
  · intro h
    subst h
    simp [Real.sqrt_eq_zero']

theorem Vec3.length_pos_of_ne_zero {v : Vec3} (h : v ≠ 0) : 0 < v.length :=
  lt_of_le_of_ne (Vec3.length_nonneg v) fun h0 => h ((Vec3.length_eq_zero_iff v).mp h0.symm)

theorem Vec3.length_smul (k : ℝ) (v : Vec3) : (k • v).length = |k| * v.length := by
  unfold Vec3.length
  simp only [Vec3.smul_def]
  rw [show (k * v.x) ^ 2 + (k * v.y) ^ 2 + (k * v.z) ^ 2
        = k ^ 2 * (v.x ^ 2 + v.y ^ 2 + v.z ^ 2) by ring,
    Real.sqrt_mul (sq_nonneg k), Real.sqrt_sq_eq_abs]

theorem Vec3.length_neg (v : Vec3) : (-v).length = v.length := by
  unfold Vec3.length
  simp only [Vec3.neg_def]
  ring_nf

theorem Vec3.zero_sub_eq_neg (v : Vec3) : (0 : Vec3) - v = -v := by
  ext <;> simp

theorem Vec3.normalize_neg (v : Vec3) : (-v).normalize = -v.normalize := by
  unfold Vec3.normalize
  rw [Vec3.length_neg]
  ext <;> simp [mul_comm]

theorem Vec3.normalize_smul_of_pos {k : ℝ} (hk : 0 < k) (v : Vec3) :
    (k • v).normalize = v.normalize := by
  unfold Vec3.normalize
  rw [Vec3.length_smul, abs_of_pos hk]
  rcases eq_or_ne v.length 0 with h | h
  · simp [h]
  · ext <;> simp only [Vec3.smul_def] <;> field_simp <;> ring

theorem Mat3.mulVec_smul (m : Mat3) (k : ℝ) (v : Vec3) :
    m.mulVec (k • v) = k • m.mulVec v := by
  unfold Mat3.mulVec
  ext <;> simp <;> ring

theorem Mat3.mulVec_neg (m : Mat3) (v : Vec3) :
    m.mulVec (-v) = -m.mulVec v := by
  unfold Mat3.mulVec
  ext <;> simp <;> ring

theorem Mat3.mul_mulVec (m n : Mat3) (v : Vec3) :
    (m * n).mulVec v = m.mulVec (n.mulVec v) := by
  simp only [Mat3.mul_def]
  unfold Mat3.mulVec
  ext <;> simp <;> ring

theorem Mat3.id_mulVec (v : Vec3) : Mat3.id.mulVec v = v := by
  unfold Mat3.mulVec Mat3.id
  ext <;> simp

theorem Mat3.id_mul (m : Mat3) : Mat3.id * m = m := by
  simp only [Mat3.mul_def, Mat3.id_mulVec]

theorem Mat3.mul_id (m : Mat3) : m * Mat3.id = m := by
  simp only [Mat3.mul_def]
  unfold Mat3.mulVec Mat3.id
  ext <;> simp

theorem Mat3.from_rotation_x_zero : Mat3.from_rotation_x 0 = Mat3.id := by
  unfold Mat3.from_rotation_x Mat3.id
  simp

theorem Mat3.from_rotation_z_zero : Mat3.from_rotation_z 0 = Mat3.id := by
  unfold Mat3.from_rotation_z Mat3.id
  simp

theorem Mat3.from_euler_xyz_yaw (b : ℝ) :
    Mat3.from_euler_xyz 0 b 0 = Mat3.from_rotation_y b := by
  unfold Mat3.from_euler_xyz
  rw [Mat3.from_rotation_x_zero, Mat3.from_rotation_z_zero, Mat3.id_mul, Mat3.mul_id]

theorem Mat3.from_rotation_y_mulVec (θ : ℝ) (v : Vec3) :
    (Mat3.from_rotation_y θ).mulVec v =
      ⟨Real.cos θ * v.x + Real.sin θ * v.z, v.y,
        -Real.sin θ * v.x + Real.cos θ * v.z⟩ := by
  unfold Mat3.from_rotation_y Mat3.mulVec
  ext <;> simp <;> ring

theorem Vec3.length_rotation_y (θ : ℝ) (v : Vec3) :
    ((Mat3.from_rotation_y θ).mulVec v).length = v.length := by
  rw [Mat3.from_rotation_y_mulVec]
  unfold Vec3.length
  have h := Real.sin_sq_add_cos_sq θ
  congr 1
  dsimp only
  linear_combination (v.x ^ 2 + v.z ^ 2) * h

theorem Mat3.from_rotation_y_normalize (θ : ℝ) (v : Vec3) :
    ((Mat3.from_rotation_y θ).mulVec v).normalize =
      (Mat3.from_rotation_y θ).mulVec v.normalize := by
  unfold Vec3.normalize
  rw [Vec3.length_rotation_y, Mat3.mulVec_smul]

@[simp]
theorem Vec3.length_zero : (0 : Vec3).length = 0 := by
  simp [Vec3.length]

theorem Vec3.one_smul_eq (v : Vec3) : (1 : ℝ) • v = v := by
  ext <;> simp

theorem Vec3.smul_neg_eq (k : ℝ) (v : Vec3) : k • (-v) = -(k • v) := by
  ext <;> simp

theorem Mat3.from_rotation_y_zero : Mat3.from_rotation_y 0 = Mat3.id := by
  unfold Mat3.from_rotation_y Mat3.id
  simp

theorem Transform.looking_at_forward (t : Transform) (target up : Vec3) :
    (t.looking_at target up).forward = (target - t.translation).normalize := by
  unfold Transform.looking_at Transform.forward look_to_rotation Mat3.mulVec
  ext <;> simp

/-! ### Resolving the controller's input branches -/

theorem yaw_of_right {input : InputState} (dt : ℝ) (hr : input.right = true) :
    yaw input dt = dt := by
  simp [yaw, hr]

theorem yaw_of_none {input : InputState} (dt : ℝ) (hr : input.right = false)
    (hl : input.left = false) : yaw input dt = 0 := by
  simp [yaw, hr, hl]

theorem distance_change_of_down {input : InputState} (dt : ℝ) {t : Vec3}
    (hdown : input.down = true) (hlt : t.length < 25) :
    distance_change input dt t = dt := by
  simp [distance_change, hdown, hlt]

theorem distance_change_of_up {input : InputState} (dt : ℝ) {t : Vec3}
    (hup : input.up = true) (hgt : t.length > 2)
    (hno : ¬(input.down = true ∧ t.length < 25)) :
    distance_change input dt t = -dt := by
  unfold distance_change
  rw [if_neg hno, if_pos ⟨hup, hgt⟩]

theorem distance_change_of_none {input : InputState} (dt : ℝ) (t : Vec3)
    (hup : input.up = false) (hdown : input.down = false) :
    distance_change input dt t = 0 := by
  simp [distance_change, hup, hdown]

theorem distance_change_nonpos_of_far {input : InputState} {dt : ℝ} {t : Vec3}
    (hdt : 0 ≤ dt) (hfar : 25 ≤ t.length) :
    distance_change input dt t ≤ 0 := by
  unfold distance_change
  rw [if_neg fun hc => absurd hc.2 (not_lt.mpr hfar)]
  split
  · linarith
  · exact le_refl 0

theorem distance_change_nonneg_of_near {input : InputState} {dt : ℝ} {t : Vec3}
    (hdt : 0 ≤ dt) (hnear : t.length ≤ 2) :
    0 ≤ distance_change input dt t := by
  unfold distance_change
  split
  · exact hdt
  · rw [if_neg fun hc => absurd hc.2 (not_lt.mpr hnear)]

/-! ### Unfolding the controller step -/

theorem camera_control_system_translation (input : InputState) (dt : ℝ) (s : Transform) :
    (camera_control_system input dt s).translation =
      (Mat3.from_rotation_y (yaw input dt)).mulVec
        (Real.exp (distance_change input dt s.translation) • s.translation) := by
  unfold camera_control_system Transform.rotate_around
  rw [Mat3.from_euler_xyz_yaw]
  have h : (Real.exp (distance_change input dt s.translation) • s.translation - ⟨0, 0, 0⟩)
      = Real.exp (distance_change input dt s.translation) • s.translation := by
    ext <;> simp
  simp only [h]
  ext <;> simp

theorem camera_control_system_rotation (input : InputState) (dt : ℝ) (s : Transform) :
    (camera_control_system input dt s).rotation =
      Mat3.from_rotation_y (yaw input dt) * s.rotation := by
  unfold camera_control_system Transform.rotate_around
  rw [Mat3.from_euler_xyz_yaw]

theorem camera_control_system_length (input : InputState) (dt : ℝ) (s : Transform) :
    (camera_control_system input dt s).translation.length =
      Real.exp (distance_change input dt s.translation) * s.translation.length := by
  rw [camera_control_system_translation, Vec3.length_rotation_y, Vec3.length_smul,
    abs_of_pos (Real.exp_pos _)]

theorem initial_camera_translation : initial_camera.translation = ⟨1, 2.5, 7⟩ := rfl

theorem initial_camera_length : initial_camera.translation.length = 7.5 := by
  rw [initial_camera_translation]
  show Real.sqrt ((1 : ℝ) ^ 2 + 2.5 ^ 2 + 7 ^ 2) = 7.5
  rw [show ((1 : ℝ) ^ 2 + 2.5 ^ 2 + 7 ^ 2) = 7.5 ^ 2 by norm_num]
  exact Real.sqrt_sq (by norm_num)

theorem initial_camera_translation_ne_zero : initial_camera.translation ≠ 0 := by
  rw [initial_camera_translation]
  intro h
  have hx : (1 : ℝ) = 0 := congrArg Vec3.x h
  norm_num at hx

/-! ### The claims -/

/-- C1: Look-at invariant — for every camera state reachable from the initial
pose created by `setup` (which looks at the origin) through per-frame
`camera_control_system` updates, the camera's normalized forward direction
equals the normalized vector from the camera position to the world origin. -/
theorem look_at_invariant (s : Transform) (h : Reachable s) : looks_at_origin s := by
  induction h with
  | init =>
      unfold looks_at_origin initial_camera
      rw [Transform.looking_at_forward]
      rfl
  | step input dt s hs ih =>
      unfold looks_at_origin at ih ⊢
      have h1 : ((0 : Vec3) - (camera_control_system input dt s).translation).normalize
          = (Mat3.from_rotation_y (yaw input dt)).mulVec ((-s.translation).normalize) := by
        rw [camera_control_system_translation, Vec3.zero_sub_eq_neg, ← Mat3.mulVec_neg,
          Mat3.from_rotation_y_normalize, ← Vec3.smul_neg_eq,
          Vec3.normalize_smul_of_pos (Real.exp_pos _)]
      calc (camera_control_system input dt s).forward
          = (Mat3.from_rotation_y (yaw input dt)).mulVec (s.rotation.mulVec ⟨0, 0, -1⟩) := by
            unfold Transform.forward
            rw [camera_control_system_rotation, Mat3.mul_mulVec]
        _ = (Mat3.from_rotation_y (yaw input dt)).mulVec
              (((0 : Vec3) - s.translation).normalize) := by
            rw [show s.rotation.mulVec ⟨0, 0, -1⟩ = s.forward from rfl, ih]
        _ = ((0 : Vec3) - (camera_control_system input dt s).translation).normalize := by
            rw [h1, Vec3.zero_sub_eq_neg]

/-- Witness for C1: the invariant evaluated at the initial camera pose. -/
theorem look_at_invariant_witness : looks_at_origin initial_camera :=
  look_at_invariant initial_camera Reachable.init

/-- C2: Exponential dolly law — on a frame where zoom-out is held and the
pre-frame distance is below 25, the post-update distance equals the pre-update
distance times `exp delta_seconds`, and the update never maps a nonzero
position to the zero position (the radial factor is strictly positive). -/
theorem exponential_dolly_law (input : InputState) (dt : ℝ) (s : Transform)
    (hdown : input.down = true) (hlt : s.translation.length < 25) :
    (camera_control_system input dt s).translation.length
        = Real.exp dt * s.translation.length
      ∧ (s.translation ≠ 0 → (camera_control_system input dt s).translation ≠ 0) := by
  have hdc : distance_change input dt s.translation = dt :=
    distance_change_of_down dt hdown hlt
  constructor
  · rw [camera_control_system_length, hdc]
  · intro h0 hc
    have h1 : (camera_control_system input dt s).translation.length = 0 := by
      rw [hc, Vec3.length_zero]
    rw [camera_control_system_length, hdc] at h1
    have h2 := Real.exp_pos dt
    have h3 := Vec3.length_pos_of_ne_zero h0
    nlinarith

/-- Witness for C2: one zoom-out frame from the initial pose with
`delta_seconds = 0.1` multiplies the distance by `exp 0.1` and keeps the
position nonzero. -/
theorem exponential_dolly_law_witness :
    (camera_control_system ⟨false, false, false, true⟩ 0.1 initial_camera).translation.length
        = Real.exp 0.1 * initial_camera.translation.length
      ∧ (camera_control_system ⟨false, false, false, true⟩ 0.1 initial_camera).translation ≠ 0 := by
  have h := exponential_dolly_law ⟨false, false, false, true⟩ 0.1 initial_camera rfl
    (by rw [initial_camera_length]; norm_num)
  exact ⟨h.1, h.2 initial_camera_translation_ne_zero⟩

/-- C3: Soft distance bounds — the clamp checks read the pre-frame distance:
once the pre-frame distance is at least 25, holding zoom-out gives no further
increase; on a triggering zoom-out frame (pre-frame distance below 25) the
post-update distance is at most `25 * exp delta_seconds`; symmetrically, once
the pre-frame distance is at most 2, holding zoom-in gives no further
decrease. -/
theorem soft_distance_bounds (input : InputState) (dt : ℝ) (s : Transform)
    (hdt : 0 ≤ dt) :
    (input.down = true → 25 ≤ s.translation.length →
        (camera_control_system input dt s).translation.length ≤ s.translation.length)
      ∧ (input.down = true → s.translation.length < 25 →
        (camera_control_system input dt s).translation.length ≤ 25 * Real.exp dt)
      ∧ (input.up = true → s.translation.length ≤ 2 →
        s.translation.length ≤ (camera_control_system input dt s).translation.length) := by
  refine ⟨fun _ hfar => ?_, fun hdown hlt => ?_, fun _ hnear => ?_⟩
  · rw [camera_control_system_length]
    have h1 : Real.exp (distance_change input dt s.translation) ≤ 1 := by
      rw [← Real.exp_zero]
      exact Real.exp_le_exp.mpr (distance_change_nonpos_of_far hdt hfar)
    exact mul_le_of_le_one_left (Vec3.length_nonneg _) h1
  · rw [camera_control_system_length, distance_change_of_down dt hdown hlt, mul_comm]
    have h2 := Real.exp_pos dt
    have h3 := Vec3.length_nonneg s.translation
    nlinarith
  · rw [camera_control_system_length]
    have h1 : 1 ≤ Real.exp (distance_change input dt s.translation) := by
      rw [← Real.exp_zero]
      exact Real.exp_le_exp.mpr (distance_change_nonneg_of_near hdt hnear)
    exact le_mul_of_one_le_left (Vec3.length_nonneg _) h1

/-- Witness for C3: the three bounds evaluated on concrete frames — zoom-out
at distance 25 (no increase), zoom-out at distance 5 (bounded overshoot), and
zoom-in at distance 2 (no decrease), each with `delta_seconds = 1`. -/
theorem soft_distance_bounds_witness :
    ((camera_control_system ⟨false, false, false, true⟩ 1
        ⟨⟨25, 0, 0⟩, Mat3.id⟩).translation.length
      ≤ (⟨⟨25, 0, 0⟩, Mat3.id⟩ : Transform).translation.length)
      ∧ ((camera_control_system ⟨false, false, false, true⟩ 1
        ⟨⟨3, 0, 4⟩, Mat3.id⟩).translation.length ≤ 25 * Real.exp 1)
      ∧ ((⟨⟨2, 0, 0⟩, Mat3.id⟩ : Transform).translation.length
        ≤ (camera_control_system ⟨false, false, true, false⟩ 1
          ⟨⟨2, 0, 0⟩, Mat3.id⟩).translation.length) := by
  have h25 : (⟨⟨25, 0, 0⟩, Mat3.id⟩ : Transform).translation.length = 25 := by
    show Real.sqrt ((25 : ℝ) ^ 2 + 0 ^ 2 + 0 ^ 2) = 25
    rw [show ((25 : ℝ) ^ 2 + 0 ^ 2 + 0 ^ 2) = 25 ^ 2 by norm_num]
    exact Real.sqrt_sq (by norm_num)
  have h5 : (⟨⟨3, 0, 4⟩, Mat3.id⟩ : Transform).translation.length = 5 := by
    show Real.sqrt ((3 : ℝ) ^ 2 + 0 ^ 2 + 4 ^ 2) = 5
    rw [show ((3 : ℝ) ^ 2 + 0 ^ 2 + 4 ^ 2) = 5 ^ 2 by norm_num]
    exact Real.sqrt_sq (by norm_num)
  have h2 : (⟨⟨2, 0, 0⟩, Mat3.id⟩ : Transform).translation.length = 2 := by
    show Real.sqrt ((2 : ℝ) ^ 2 + 0 ^ 2 + 0 ^ 2) = 2
    rw [show ((2 : ℝ) ^ 2 + 0 ^ 2 + 0 ^ 2) = 2 ^ 2 by norm_num]
    exact Real.sqrt_sq (by norm_num)
  exact ⟨(soft_distance_bounds _ 1 _ (by norm_num)).1 rfl h25.symm.le,
    (soft_distance_bounds _ 1 _ (by norm_num)).2.1 rfl (by rw [h5]; norm_num),
    (soft_distance_bounds _ 1 _ (by norm_num)).2.2 rfl h2.le⟩

/-- C4: Conflicting yaw input resolution — on any frame where both rotate
keys are held, the rotate-right branch is taken: the yaw delta is
`+delta_seconds`, and the whole update behaves as if rotate-left were not
held. -/
theorem conflicting_yaw_right_priority (input : InputState) (dt : ℝ) (s : Transform)
    (hr : input.right = true) (hl : input.left = true) :
    yaw input dt = dt
      ∧ camera_control_system input dt s
          = camera_control_system ⟨false, input.right, input.up, input.down⟩ dt s := by
  refine ⟨yaw_of_right dt hr, ?_⟩
  unfold camera_control_system
  rw [show yaw input dt = dt from yaw_of_right dt hr,
    show yaw ⟨false, input.right, input.up, input.down⟩ dt = dt from yaw_of_right dt hr,
    show distance_change ⟨false, input.right, input.up, input.down⟩ dt s.translation
        = distance_change input dt s.translation from rfl]

/-- Witness for C4: both rotate keys held with `delta_seconds = 1` at the
initial pose — the yaw delta is `+1` and the update ignores the left key. -/
theorem conflicting_yaw_right_priority_witness :
    yaw ⟨true, true, false, false⟩ 1 = 1
      ∧ camera_control_system ⟨true, true, false, false⟩ 1 initial_camera
          = camera_control_system ⟨false, true, false, false⟩ 1 initial_camera :=
  conflicting_yaw_right_priority ⟨true, true, false, false⟩ 1 initial_camera rfl rfl

/-- C5 counterexample: a frame with neither rotate key held but zoom-out held
(`delta_seconds = 0.1`, initial pose) changes the camera position, refuting
"no rotate input implies position and orientation unchanged". -/
theorem no_rotate_fixed_point_counterexample :
    (InputState.mk false false false true).left = false
      ∧ (InputState.mk false false false true).right = false
      ∧ (camera_control_system ⟨false, false, false, true⟩ 0.1 initial_camera).translation
          ≠ initial_camera.translation := by
  refine ⟨rfl, rfl, fun hc => ?_⟩
  have hlen := congrArg Vec3.length hc
  rw [camera_control_system_length,
    distance_change_of_down 0.1 rfl (by rw [initial_camera_length]; norm_num),
    initial_camera_length] at hlen
  have h1 : (1.1 : ℝ) ≤ Real.exp 0.1 := by
    have := Real.add_one_le_exp (0.1 : ℝ)
    linarith
  nlinarith

/-- C5 (amended): if neither rotate key is held the orientation is unchanged
by the frame update, and if additionally neither zoom key is held the whole
transform (position and orientation) is unchanged — an exact fixed point. -/
theorem no_input_fixed_point (input : InputState) (dt : ℝ) (s : Transform)
    (hl : input.left = false) (hr : input.right = false) :
    (camera_control_system input dt s).rotation = s.rotation
      ∧ (input.up = false → input.down = false →
          camera_control_system input dt s = s) := by
  have hyaw : yaw input dt = 0 := yaw_of_none dt hr hl
  constructor
  · rw [camera_control_system_rotation, hyaw, Mat3.from_rotation_y_zero, Mat3.id_mul]
  · intro hup hdown
    have hdc : distance_change input dt s.translation = 0 :=
      distance_change_of_none dt s.translation hup hdown
    have ht : (camera_control_system input dt s).translation = s.translation := by
      rw [camera_control_system_translation, hyaw, hdc, Real.exp_zero,
        Vec3.one_smul_eq, Mat3.from_rotation_y_zero, Mat3.id_mulVec]
    have hrot : (camera_control_system input dt s).rotation = s.rotation := by
      rw [camera_control_system_rotation, hyaw, Mat3.from_rotation_y_zero, Mat3.id_mul]
    exact Transform.ext ht hrot

/-- Witness for C5 (amended): with no key held and `delta_seconds = 1`, the
initial pose is exactly unchanged. -/
theorem no_input_fixed_point_witness :
    (camera_control_system ⟨false, false, false, false⟩ 1 initial_camera).rotation
        = initial_camera.rotation
      ∧ camera_control_system ⟨false, false, false, false⟩ 1 initial_camera
          = initial_camera :=
  ⟨(no_input_fixed_point ⟨false, false, false, false⟩ 1 initial_camera rfl rfl).1,
    (no_input_fixed_point ⟨false, false, false, false⟩ 1 initial_camera rfl rfl).2 rfl rfl⟩

theorem Vec3.length_axis (a : ℝ) (h : 0 ≤ a) : (Vec3.mk a 0 0).length = a := by
  show Real.sqrt (a ^ 2 + 0 ^ 2 + 0 ^ 2) = a
  rw [show a ^ 2 + 0 ^ 2 + 0 ^ 2 = a ^ 2 by ring]
  exact Real.sqrt_sq h

/-- C6 counterexample: the initial camera position `(1, 2.5, 7)` has distance
7.5 from the origin, not 7.07, so the zoom-out frame with
`delta_seconds = 0.1` yields distance `7.5 * exp 0.1 ≥ 8.25`, not
approximately 7.814. -/
theorem example_scenario_counterexample :
    initial_camera.translation.length = 7.5
      ∧ initial_camera.translation.length ≠ 7.07
      ∧ (camera_control_system ⟨false, true, false, true⟩ 0.1
          initial_camera).translation.length = 7.5 * Real.exp 0.1
      ∧ 8.25 ≤ (camera_control_system ⟨false, true, false, true⟩ 0.1
          initial_camera).translation.length := by
  have hpost : (camera_control_system ⟨false, true, false, true⟩ 0.1
      initial_camera).translation.length = 7.5 * Real.exp 0.1 := by
    rw [camera_control_system_length,
      distance_change_of_down 0.1 rfl (by rw [initial_camera_length]; norm_num),
      initial_camera_length, mul_comm]
  refine ⟨initial_camera_length, by rw [initial_camera_length]; norm_num, hpost, ?_⟩
  rw [hpost]
  have h1 : (1.1 : ℝ) ≤ Real.exp 0.1 := by
    have := Real.add_one_le_exp (0.1 : ℝ)
    linarith
  nlinarith

/-- C6 (amended): with `delta_seconds = 0.1`, zoom-out and rotate-right held,
one update from the initial pose (distance 7.5) scales the position by
`exp 0.1` — new distance `7.5 * exp 0.1 ≈ 8.29` — and additionally advances
the yaw by 0.1 radians about the world up axis pivoted at the origin. -/
theorem example_scenario_amended :
    (camera_control_system ⟨false, true, false, true⟩ 0.1 initial_camera).translation
        = (Mat3.from_rotation_y 0.1).mulVec (Real.exp 0.1 • initial_camera.translation)
      ∧ (camera_control_system ⟨false, true, false, true⟩ 0.1
          initial_camera).translation.length = 7.5 * Real.exp 0.1
      ∧ yaw ⟨false, true, false, true⟩ 0.1 = 0.1
      ∧ (camera_control_system ⟨false, true, false, true⟩ 0.1 initial_camera).rotation
          = Mat3.from_rotation_y 0.1 * initial_camera.rotation := by
  have hdc : distance_change ⟨false, true, false, true⟩ 0.1 initial_camera.translation
      = 0.1 := distance_change_of_down 0.1 rfl (by rw [initial_camera_length]; norm_num)
  have hyaw : yaw ⟨false, true, false, true⟩ 0.1 = 0.1 := yaw_of_right 0.1 rfl
  refine ⟨?_, ?_, hyaw, ?_⟩
  · rw [camera_control_system_translation, hyaw, hdc]
  · rw [camera_control_system_length, hdc, initial_camera_length, mul_comm]
  · rw [camera_control_system_rotation, hyaw]

/-- C7: Scene determinism — the composer is a fixed value, so two runs emit
identical scene graphs, with exactly five nodes: one directional light, one
ground plane, one cube, one quad (the transmissive window), one camera. -/
theorem scene_determinism :
    setup = setup
      ∧ setup.length = 5
      ∧ (setup.filter SceneNode.is_light).length = 1
      ∧ (setup.filter SceneNode.is_plane).length = 1
      ∧ (setup.filter SceneNode.is_cube).length = 1
      ∧ (setup.filter SceneNode.is_quad).length = 1
      ∧ (setup.filter SceneNode.is_camera).length = 1 :=
  ⟨rfl, rfl, rfl, rfl, rfl, rfl, rfl⟩

/-- C8: Transmissive panel construction — `setup` emits exactly one quad, and
every quad node it emits carries diffuse transmission 1, specular
transmission 1, IOR 1.4, roughness 0, reflectance 0, and is flagged to
neither cast nor receive shadows. -/
theorem transmissive_panel_properties :
    (setup.filter SceneNode.is_quad).length = 1
      ∧ ∀ shape material cast receive t,
          SceneNode.object shape material cast receive t ∈ setup →
          SceneNode.is_quad (SceneNode.object shape material cast receive t) = true →
            material.diffuse_transmission = 1 ∧ material.specular_transmission = 1
              ∧ material.ior = 1.4 ∧ material.perceptual_roughness = 0
              ∧ material.reflectance = 0 ∧ cast = false ∧ receive = false := by
  refine ⟨rfl, ?_⟩
  intro shape material cast receive t hmem hquad
  simp only [setup, List.mem_cons, List.not_mem_nil, or_false] at hmem
  rcases hmem with h | h | h | h | h
  · exact SceneNode.noConfusion h
  · rw [h] at hquad
    simp [SceneNode.is_quad] at hquad
  · rw [h] at hquad
    simp [SceneNode.is_quad] at hquad
  · injection h with h1 h2 h3 h4 h5
    subst h2
    subst h3
    subst h4
    exact ⟨rfl, rfl, rfl, rfl, rfl, rfl, rfl⟩
  · exact SceneNode.noConfusion h

/-- Witness for C8: the window node of `setup` evaluated against the stated
material and shadow-flag values. -/
theorem transmissive_panel_properties_witness :
    window_material.diffuse_transmission = 1 ∧ window_material.specular_transmission = 1
      ∧ window_material.ior = 1.4 ∧ window_material.perceptual_roughness = 0
      ∧ window_material.reflectance = 0 ∧ false = false ∧ false = false :=
  transmissive_panel_properties.2 (MeshShape.quad 4 4) window_material false false
    ⟨⟨0.25, 1, -2⟩, Mat3.from_euler_xyz (Real.pi * 1.5) 0 0⟩ (by simp [setup]) rfl

/-- C9: Yaw preserves distance — the rotate-around step applied by the
controller leaves the distance from the origin unchanged for every yaw angle
and every transform, and the full frame update changes the distance exactly
by the dolly factor `exp distance_change`. -/
theorem yaw_preserves_distance (input : InputState) (dt θ : ℝ) (s : Transform) :
    (s.rotate_around 0 (Mat3.from_euler_xyz 0 θ 0)).translation.length
        = s.translation.length
      ∧ (camera_control_system input dt s).translation.length
          = Real.exp (distance_change input dt s.translation) * s.translation.length := by
  constructor
  · have h : (s.rotate_around 0 (Mat3.from_euler_xyz 0 θ 0)).translation
        = (Mat3.from_rotation_y θ).mulVec s.translation := by
      show (0 : Vec3) + (Mat3.from_euler_xyz 0 θ 0).mulVec (s.translation - 0)
          = (Mat3.from_rotation_y θ).mulVec s.translation
      rw [Mat3.from_euler_xyz_yaw]
      ext <;> simp
    rw [h, Vec3.length_rotation_y]
  · exact camera_control_system_length input dt s

/-- C10: Zoom priority inverts at the outer bound — with both zoom keys held,
once the pre-frame distance is at least 25 the zoom-in branch fires and the
distance shrinks by `exp (-delta_seconds)`; zoom-out keeps priority only
while the pre-frame distance is below 25. -/
theorem zoom_priority_outer_bound (input : InputState) (dt : ℝ) (s : Transform)
    (hdown : input.down = true) (hup : input.up = true) :
    (25 ≤ s.translation.length →
        (camera_control_system input dt s).translation.length
          = Real.exp (-dt) * s.translation.length)
      ∧ (s.translation.length < 25 →
        (camera_control_system input dt s).translation.length
          = Real.exp dt * s.translation.length) := by
  constructor
  · intro hfar
    have hno : ¬(input.down = true ∧ s.translation.length < 25) :=
      fun hc => absurd hc.2 (not_lt.mpr hfar)
    rw [camera_control_system_length, distance_change_of_up dt hup (by linarith) hno]
  · intro hlt
    rw [camera_control_system_length, distance_change_of_down dt hdown hlt]

/-- Witness for C10: both zoom keys held with `delta_seconds = 1` — at
distance 25 the distance is multiplied by `exp (-1)`, while from the initial
pose (distance 7.5) it is multiplied by `exp 1`. -/
theorem zoom_priority_outer_bound_witness :
    ((camera_control_system ⟨false, false, true, true⟩ 1
        ⟨⟨25, 0, 0⟩, Mat3.id⟩).translation.length
      = Real.exp (-1) * (⟨⟨25, 0, 0⟩, Mat3.id⟩ : Transform).translation.length)
      ∧ ((camera_control_system ⟨false, false, true, true⟩ 1
          initial_camera).translation.length
        = Real.exp 1 * initial_camera.translation.length) :=
  ⟨(zoom_priority_outer_bound ⟨false, false, true, true⟩ 1 ⟨⟨25, 0, 0⟩, Mat3.id⟩
      rfl rfl).1 (Vec3.length_axis 25 (by norm_num)).symm.le,
    (zoom_priority_outer_bound ⟨false, false, true, true⟩ 1 initial_camera rfl rfl).2
      (by rw [initial_camera_length]; norm_num)⟩

end TransmissionBlack
